import Mathlib

set_option maxHeartbeats 1000000

/-!
Verification of the surfel mapper ROS node (`surfel_mapper_node.cpp`):
timestamp rounding, pose lookup by bisection, the cloud-message queue,
camera-info initialization, marker publication and map reset.
-/

namespace SurfelMapperNode

/-- A ROS timestamp: `sec` and `nsec` fields (both `uint32` in ROS). -/
structure RosTime where
  sec : Nat
  nsec : Nat
deriving DecidableEq, Inhabited

/-- Modulus of the `uint32` `sec` field (relevant only for the carry in rounding). -/
def UINT32_MOD : Nat := 4294967296

/-- Embedding of `roundTimeStamp` (surfel_mapper_node.cpp, lines 77-90):
truncate `nsec` to whole milliseconds, round up when the remainder exceeds
0.5 ms, carrying into `sec` when the nanosecond field reaches a full second. -/
def roundTimeStamp (t : RosTime) : RosTime :=
  if 500000 < t.nsec % 1000000 then
    if t.nsec - t.nsec % 1000000 + 1000000 = 1000000000 then
      { sec := (t.sec + 1) % UINT32_MOD, nsec := 0 }
    else
      { sec := t.sec, nsec := t.nsec - t.nsec % 1000000 + 1000000 }
  else
    { sec := t.sec, nsec := t.nsec - t.nsec % 1000000 }

/-- Total nanosecond count of a timestamp (the quantity underlying
`ros::Time`/`ros::Duration` comparison for normalized stamps). -/
def toNanos (t : RosTime) : Int := (t.sec : Int) * 1000000000 + (t.nsec : Int)

/-- `ros::Time` strict comparison (lexicographic on `(sec, nsec)`). -/
def timeLt (a b : RosTime) : Prop :=
  a.sec < b.sec ∨ (a.sec = b.sec ∧ a.nsec < b.nsec)

/-- `ros::Time` non-strict comparison (lexicographic on `(sec, nsec)`). -/
def timeLe (a b : RosTime) : Prop :=
  a.sec < b.sec ∨ (a.sec = b.sec ∧ a.nsec ≤ b.nsec)

instance (a b : RosTime) : Decidable (timeLt a b) := by
  unfold timeLt; infer_instance

instance (a b : RosTime) : Decidable (timeLe a b) := by
  unfold timeLe; infer_instance

/-- The twelve node parameters (surfel_mapper_node.cpp, lines 35-46).
Numeric literals are modelled as exact rationals. -/
structure NodeParams where
  dmax : ℚ
  min_kinect_dist : ℚ
  max_kinect_dist : ℚ
  octree_resolution : ℚ
  preview_resolution : ℚ
  preview_color_samples_in_voxel : ℤ
  confidence_threshold : ℤ
  min_scan_znormal : ℚ
  use_frustum : Bool
  scene_size : ℤ
  logging : Bool
  use_update : Bool
deriving DecidableEq

/-- Values supplied on the parameter server (`np.getParam` succeeds iff the
corresponding field is `some`). -/
structure ProvidedParams where
  dmax : Option ℚ
  min_kinect_dist : Option ℚ
  max_kinect_dist : Option ℚ
  octree_resolution : Option ℚ
  preview_resolution : Option ℚ
  preview_color_samples_in_voxel : Option ℤ
  confidence_threshold : Option ℤ
  min_scan_znormal : Option ℚ
  use_frustum : Option Bool
  scene_size : Option ℤ
  logging : Option Bool
  use_update : Option Bool

/-- Embedding of the parameter-parsing block in `main`
(surfel_mapper_node.cpp, lines 484-495): each `if (!np.getParam(...)) x = d`
keeps the provided value when present and otherwise assigns the literal
default (`3e7` converted to `int` is 30000000). -/
def parseParams (p : ProvidedParams) : NodeParams where
  dmax := p.dmax.getD 0.005
  min_kinect_dist := p.min_kinect_dist.getD 0.8
  max_kinect_dist := p.max_kinect_dist.getD 4.0
  octree_resolution := p.octree_resolution.getD 0.2
  preview_resolution := p.preview_resolution.getD 0.2
  preview_color_samples_in_voxel := p.preview_color_samples_in_voxel.getD 3
  confidence_threshold := p.confidence_threshold.getD 5
  min_scan_znormal := p.min_scan_znormal.getD 0.2
  use_frustum := p.use_frustum.getD true
  scene_size := p.scene_size.getD 30000000
  logging := p.logging.getD true
  use_update := p.use_update.getD true

/-- No parameter provided at startup. -/
def noProvidedParams : ProvidedParams :=
  ⟨none, none, none, none, none, none, none, none, none, none, none, none⟩

/-- Modelled from the spec: a surfel record of the SurfelMapper library
(whose sources, `libmapper`, are not part of the repository snapshot):
position (with a non-finite sentinel modelled as `none`), normal, color,
radius and confidence count (spec §3). -/
structure Surfel where
  pos : Option (ℚ × ℚ × ℚ)
  normal : ℚ × ℚ × ℚ
  color : ℚ × ℚ × ℚ
  radius : ℚ
  confidence : Nat
deriving DecidableEq

/-- Modelled from the spec: the SurfelMapper aggregate state — the surfel
store plus the set of indices held by the spatial index (spec §3, §4.6). -/
structure MapState where
  store : List Surfel
  octreeIndices : List Nat
deriving DecidableEq

/-- Mark a surfel invalid by storing the sentinel non-finite position. -/
def markInvalid (s : Surfel) : Surfel := { s with pos := none }

/-- Modelled from the spec: `resetMap()` invalidates all surfels and clears
the spatial index (spec §4.6). -/
def resetMap (m : MapState) : MapState :=
  { store := m.store.map markInvalid, octreeIndices := [] }

/-- Modelled from the spec: `getAllIndices()` enumerates every index
currently referenced by the spatial index (spec §4.6, §4.2). -/
def getAllIndices (m : MapState) : List Nat := m.octreeIndices

/-- Embedding of `resetMapCallback` (surfel_mapper_node.cpp, lines 406-418):
resets the map when the mapper is initialized, otherwise does nothing. -/
def resetMapCallback (mapper : Option MapState) : Option MapState :=
  match mapper with
  | some m => some (resetMap m)
  | none => none

/-- Upper limit for the number of markers in a single displayed map fragment
(surfel_mapper_node.cpp, line 258). -/
def MAX_MARKERS : Nat := 100000

/-- The part of a stored surfel point that `sendMapMessage` reads: the
finiteness flag (`pcl::isFinite`) and position/radius. -/
structure SurfelPoint where
  finite : Bool
  x : ℚ
  y : ℚ
  z : ℚ
  radius : ℚ
deriving DecidableEq, Inhabited

/-- A published marker: its id (the loop index) and the pose/scale data
copied from the surfel point. -/
structure Marker where
  id : Nat
  px : ℚ
  py : ℚ
  pz : ℚ
  sx : ℚ
deriving DecidableEq

/-- Embedding of the marker-emission loop of `sendMapMessage`
(surfel_mapper_node.cpp, lines 270-329): iterate `i` over the first
`min(|point_indices|, MAX_MARKERS)` candidates, and push a marker exactly
when the referenced record is finite and `i` is even. -/
def sendMapMessage (cloudScene : Nat → SurfelPoint) (point_indices : List Nat) :
    List Marker :=
  (List.range (min point_indices.length MAX_MARKERS)).filterMap fun i =>
    let point := cloudScene (point_indices.getD i 0)
    if point.finite && i % 2 == 0 then
      some ⟨i, point.x, point.y, point.z, point.radius * 2⟩
    else
      none

/-- Take every second element of a list, starting with the first. -/
def everyOther : List α → List α
  | [] => []
  | [a] => [a]
  | a :: _ :: rest => a :: everyOther rest

/-- Modelled from the spec claim: emission of every second one AMONG the
candidates whose stored record is finite (position within the finite-filtered
subsequence, not within the raw candidate list). -/
def claimedMarkerSelection (cloudScene : Nat → SurfelPoint)
    (point_indices : List Nat) : List Nat :=
  everyOther ((List.range (min point_indices.length MAX_MARKERS)).filter
    fun i => (cloudScene (point_indices.getD i 0)).finite)

/-- A test cloud: records with odd index are finite, even ones are not. -/
def cexCloud : Nat → SurfelPoint := fun i =>
  if i % 2 == 1 then ⟨true, 0, 0, 0, 1⟩ else ⟨false, 0, 0, 0, 1⟩

/-- A `geometry_msgs` pose: position and quaternion components. -/
structure Pose where
  px : ℚ
  py : ℚ
  pz : ℚ
  qx : ℚ
  qy : ℚ
  qz : ℚ
  qw : ℚ
deriving DecidableEq, Inhabited

/-- A `geometry_msgs::PoseStamped` entry of a `nav_msgs::Path` message. -/
structure PoseStamped where
  stamp : RosTime
  pose : Pose
deriving DecidableEq, Inhabited

/-- The `SensorPose` output structure (surfel_mapper_node.cpp, lines 51-55):
a homogeneous origin and a quaternion in `(w, x, y, z)` constructor order. -/
structure SensorPose where
  origin : ℚ × ℚ × ℚ × ℚ
  orientation : ℚ × ℚ × ℚ × ℚ
deriving DecidableEq, Inhabited

/-- Filling a `SensorPose` from a found path entry
(surfel_mapper_node.cpp, lines 139-141). -/
def sensorPoseOf (p : Pose) : SensorPose :=
  { origin := (p.px, p.py, p.pz, 1), orientation := (p.qw, p.qx, p.qy, p.qz) }

/-- Rounded timestamp of the path entry at index `k`. -/
def stampRAt (poses : List PoseStamped) (k : Nat) : RosTime :=
  roundTimeStamp (poses.getD k default).stamp

/-- Embedding of the bisection loop of `getSensorPosition`
(surfel_mapper_node.cpp, lines 114-123): while `i + 1 < j`, take the
midpoint `k` and move `i` up to `k` when the rounded stamp at `k` is at most
the rounded search stamp, otherwise move `j` down to `k`. -/
def bisect (poses : List PoseStamped) (tr : RosTime) (i j : Nat) : Nat × Nat :=
  if i + 1 < j then
    if timeLe (stampRAt poses ((i + j) / 2)) tr then
      bisect poses tr ((i + j) / 2) j
    else
      bisect poses tr i ((i + j) / 2)
  else
    (i, j)
termination_by j - i
decreasing_by all_goals omega

/-- Embedding of `getSensorPosition` (surfel_mapper_node.cpp, lines 99-146):
fail when there is no path, the pose list is empty, or the rounded search
stamp falls outside the rounded `[front, back]` stamp range; otherwise
bisect, pick the nearer of the two remaining neighbours (`i` when its gap is
strictly smaller, else `j`) and return its pose. -/
def getSensorPosition (current_path : Option (List PoseStamped))
    (time_stamp : RosTime) : Option SensorPose :=
  match current_path with
  | none => none
  | some poses =>
    if poses.isEmpty then
      none
    else if timeLt (roundTimeStamp time_stamp) (stampRAt poses 0) ∨
        timeLt (stampRAt poses (poses.length - 1)) (roundTimeStamp time_stamp) then
      none
    else
      let ij := bisect poses (roundTimeStamp time_stamp) 0 (poses.length - 1)
      let duri : Int :=
        toNanos (roundTimeStamp time_stamp) - toNanos (stampRAt poses ij.1)
      let durj : Int :=
        toNanos (stampRAt poses ij.2) - toNanos (roundTimeStamp time_stamp)
      let k := if duri < durj then ij.1 else ij.2
      some (sensorPoseOf (poses.getD k default).pose)

/-- A `sensor_msgs::PointCloud2` keyframe message: its header stamp and an
abstract payload. -/
structure CloudMsg where
  stamp : RosTime
  data : Nat
deriving DecidableEq, Inhabited

/-- Camera intrinsics as read from the camera-info matrix
(surfel_mapper_node.cpp, lines 221-225). -/
structure CameraParams where
  alpha : ℚ
  beta : ℚ
  cx : ℚ
  cy : ℚ
deriving DecidableEq

/-- A `sensor_msgs::CameraInfo` message: the 3×3 row-major `K` matrix. -/
structure CameraInfoMsg where
  K : Nat → ℚ

/-- The node's view of the mapper: its construction-time intrinsics and the
sequence of clouds handed to `addPointCloudToScene`, in call order. -/
structure Mapper where
  camera_params : CameraParams
  ingested : List CloudMsg

/-- The mutable node state: current path, buffered cloud queue, and the
optional mapper (surfel_mapper_node.cpp, lines 60-64). -/
structure NodeState where
  current_path : Option (List PoseStamped)
  cloudMsgQueue : List CloudMsg
  mapper : Option Mapper

/-- Handing one cloud to the mapper (`mapper->addPointCloudToScene`). -/
def addPointCloudToScene (mp : Mapper) (cloud : CloudMsg) : Mapper :=
  { mp with ingested := mp.ingested ++ [cloud] }

/-- The `while` loop of `processCloudMsgQueue` (surfel_mapper_node.cpp,
lines 155-181): ingest the front cloud and pop it while the pose lookup
succeeds; stop at the first failure, leaving it and everything behind it. -/
def processQueueAux (path : Option (List PoseStamped)) (mp : Mapper) :
    List CloudMsg → Mapper × List CloudMsg
  | [] => (mp, [])
  | msg :: rest =>
    match getSensorPosition path msg.stamp with
    | some _ => processQueueAux path (addPointCloudToScene mp msg) rest
    | none => (mp, msg :: rest)

/-- Embedding of `processCloudMsgQueue` (surfel_mapper_node.cpp,
lines 151-184): a no-op when the mapper is not initialized. -/
def processCloudMsgQueue (st : NodeState) : NodeState :=
  match st.mapper with
  | none => st
  | some mp =>
    let r := processQueueAux st.current_path mp st.cloudMsgQueue
    { st with mapper := some r.1, cloudMsgQueue := r.2 }

/-- Embedding of `keyframeCallback` (surfel_mapper_node.cpp, lines 202-208):
push the incoming cloud at the back of the queue, then process the queue. -/
def keyframeCallback (st : NodeState) (msg : CloudMsg) : NodeState :=
  processCloudMsgQueue { st with cloudMsgQueue := st.cloudMsgQueue ++ [msg] }

/-- Embedding of `pathCallback` (surfel_mapper_node.cpp, lines 191-195). -/
def pathCallback (st : NodeState) (msg : List PoseStamped) : NodeState :=
  { st with current_path := some msg }

/-- Embedding of `cameraInfoCallback` (surfel_mapper_node.cpp,
lines 215-235): when no mapper exists yet, create one from `K[0]`, `K[4]`,
`K[2]`, `K[5]` and process the buffered queue; otherwise ignore the message. -/
def cameraInfoCallback (st : NodeState) (msg : CameraInfoMsg) : NodeState :=
  match st.mapper with
  | some _ => st
  | none =>
    processCloudMsgQueue
      { st with mapper := some ⟨⟨msg.K 0, msg.K 4, msg.K 2, msg.K 5⟩, []⟩ }

/-- Whether the pose lookup succeeds for a cloud message. -/
def okMsg (path : Option (List PoseStamped)) (msg : CloudMsg) : Bool :=
  (getSensorPosition path msg.stamp).isSome

def wMapper : Mapper := ⟨⟨1, 1, 1, 1⟩, []⟩

def wCloud : CloudMsg := ⟨⟨5, 0⟩, 7⟩

def wState : NodeState := ⟨none, [wCloud], some wMapper⟩

def wCameraInfo : CameraInfoMsg := ⟨fun i => (i : ℚ)⟩

def wNearPoses : List PoseStamped :=
  [⟨⟨10, 0⟩, ⟨0, 0, 0, 0, 0, 0, 1⟩⟩, ⟨⟨10, 2000000⟩, ⟨1, 2, 3, 0, 0, 0, 1⟩⟩]

def wNearStamp : RosTime := ⟨10, 1700000⟩

lemma timeLt_iff_toNanos (a b : RosTime) (ha : a.nsec < 1000000000)
    (hb : b.nsec < 1000000000) : timeLt a b ↔ toNanos a < toNanos b := by
  unfold timeLt toNanos; omega

lemma timeLe_iff_toNanos (a b : RosTime) (ha : a.nsec < 1000000000)
    (hb : b.nsec < 1000000000) : timeLe a b ↔ toNanos a ≤ toNanos b := by
  unfold timeLe toNanos; omega

lemma timeLe_of_not_timeLe (a b : RosTime) (h : ¬ timeLe a b) : timeLe b a := by
  unfold timeLe at *; omega

/-- The rounded stamp stays normalized (`nsec < 10⁹`) and is a whole millisecond. -/
lemma roundTimeStamp_normalized (t : RosTime) (h : t.nsec < 1000000000) :
    (roundTimeStamp t).nsec % 1000000 = 0 ∧ (roundTimeStamp t).nsec < 1000000000 := by
  unfold roundTimeStamp
  split_ifs <;> simp <;> omega

/-- Rounding a whole-millisecond stamp changes nothing. -/
lemma roundTimeStamp_of_mod_eq_zero (t : RosTime) (h : t.nsec % 1000000 = 0) :
    roundTimeStamp t = t := by
  unfold roundTimeStamp
  simp [h]

lemma roundTimeStamp_idem (t : RosTime) (h : t.nsec < 1000000000) :
    roundTimeStamp (roundTimeStamp t) = roundTimeStamp t :=
  roundTimeStamp_of_mod_eq_zero _ (roundTimeStamp_normalized t h).1

/-- Claim C10: `roundTimeStamp` is idempotent on normalized timestamps and its
result is a normalized whole-millisecond timestamp: the `nsec` field is a
multiple of 10⁶ and strictly below 10⁹. -/
theorem roundTimeStamp_idempotent_and_normalized (t : RosTime)
    (h : t.nsec < 1000000000) :
    roundTimeStamp (roundTimeStamp t) = roundTimeStamp t ∧
    (roundTimeStamp t).nsec % 1000000 = 0 ∧
    (roundTimeStamp t).nsec < 1000000000 :=
  ⟨roundTimeStamp_idem t h, roundTimeStamp_normalized t h⟩

theorem roundTimeStamp_idempotent_and_normalized_witness :
    (999501341 : Nat) < 1000000000 ∧
    roundTimeStamp (roundTimeStamp ⟨100, 999501341⟩) = roundTimeStamp ⟨100, 999501341⟩ ∧
    (roundTimeStamp ⟨100, 999501341⟩).nsec % 1000000 = 0 ∧
    (roundTimeStamp ⟨100, 999501341⟩).nsec < 1000000000 :=
  ⟨by decide, roundTimeStamp_idempotent_and_normalized ⟨100, 999501341⟩ (by decide)⟩

/-- Claim C2 counterexample: a remainder of exactly 500000 ns is NOT rounded up
(the source tests `time_stamp_nsec_mod > 500000l`, strictly): the stamp
`(0, 500000)` rounds down to `(0, 0)`, not up to `(0, 1000000)` as the claim
states. -/
theorem roundTimeStamp_tie_rounds_down :
    roundTimeStamp ⟨0, 500000⟩ = ⟨0, 0⟩ ∧
    roundTimeStamp ⟨0, 500000⟩ ≠ ⟨0, 1000000⟩ := by
  constructor <;> decide

/-- Claim C2 (amended): for every normalized timestamp (with non-overflowing
`sec`), `roundTimeStamp` truncates to the whole millisecond, rounding upward
exactly when the sub-millisecond remainder strictly exceeds 500000 ns (a
remainder of exactly 500000 ns is truncated downward); the result is a
whole-millisecond timestamp within 500000 ns of the input; the carry into
`sec` (with `nsec` wrapping to 0) happens exactly when `nsec > 999500000`. -/
theorem roundTimeStamp_nearest_millisecond (t : RosTime)
    (h : t.nsec < 1000000000) (hs : t.sec + 1 < UINT32_MOD) :
    (roundTimeStamp t).nsec % 1000000 = 0 ∧
    (toNanos (roundTimeStamp t) - toNanos t).natAbs ≤ 500000 ∧
    (t.nsec % 1000000 ≤ 500000 →
      roundTimeStamp t = ⟨t.sec, t.nsec - t.nsec % 1000000⟩) ∧
    (500000 < t.nsec % 1000000 → 999500000 < t.nsec →
      roundTimeStamp t = ⟨t.sec + 1, 0⟩) ∧
    (500000 < t.nsec % 1000000 → t.nsec ≤ 999500000 →
      roundTimeStamp t = ⟨t.sec, t.nsec - t.nsec % 1000000 + 1000000⟩) := by
  refine ⟨(roundTimeStamp_normalized t h).1, ?_, ?_, ?_, ?_⟩ <;>
  · simp only [roundTimeStamp, toNanos, UINT32_MOD] at *
    split_ifs <;> simp_all <;> omega

theorem roundTimeStamp_nearest_millisecond_witness :
    ((999501341 : Nat) < 1000000000 ∧ 100 + 1 < UINT32_MOD) ∧
    ((roundTimeStamp ⟨100, 999501341⟩).nsec % 1000000 = 0 ∧
    (toNanos (roundTimeStamp ⟨100, 999501341⟩) - toNanos ⟨100, 999501341⟩).natAbs ≤ 500000 ∧
    ((999501341 : Nat) % 1000000 ≤ 500000 →
      roundTimeStamp ⟨100, 999501341⟩ = ⟨100, 999501341 - 999501341 % 1000000⟩) ∧
    (500000 < (999501341 : Nat) % 1000000 → 999500000 < (999501341 : Nat) →
      roundTimeStamp ⟨100, 999501341⟩ = ⟨100 + 1, 0⟩) ∧
    (500000 < (999501341 : Nat) % 1000000 → (999501341 : Nat) ≤ 999500000 →
      roundTimeStamp ⟨100, 999501341⟩ = ⟨100, 999501341 - 999501341 % 1000000 + 1000000⟩)) :=
  ⟨⟨by decide, by decide⟩,
   roundTimeStamp_nearest_millisecond ⟨100, 999501341⟩ (by decide) (by decide)⟩

/-- Claim C6: when no parameter is provided at startup, each of the twelve
recognized options takes its documented default value. -/
theorem parseParams_defaults :
    (parseParams noProvidedParams).dmax = 1 / 200 ∧
    (parseParams noProvidedParams).min_kinect_dist = 4 / 5 ∧
    (parseParams noProvidedParams).max_kinect_dist = 4 ∧
    (parseParams noProvidedParams).octree_resolution = 1 / 5 ∧
    (parseParams noProvidedParams).preview_resolution = 1 / 5 ∧
    (parseParams noProvidedParams).preview_color_samples_in_voxel = 3 ∧
    (parseParams noProvidedParams).confidence_threshold = 5 ∧
    (parseParams noProvidedParams).min_scan_znormal = 1 / 5 ∧
    (parseParams noProvidedParams).use_frustum = true ∧
    (parseParams noProvidedParams).scene_size = 30000000 ∧
    (parseParams noProvidedParams).logging = true ∧
    (parseParams noProvidedParams).use_update = true := by
  refine ⟨?_, ?_, ?_, ?_, ?_, ?_, ?_, ?_, ?_, ?_, ?_, ?_⟩ <;>
    simp [parseParams, noProvidedParams] <;> norm_num

lemma resetMap_idem (m : MapState) : resetMap (resetMap m) = resetMap m := by
  have hmark : ∀ s, markInvalid (markInvalid s) = markInvalid s := fun s => rfl
  simp [resetMap, List.map_map, Function.comp_def, hmark]

/-- Claim C8: `resetMap` is idempotent — applying it twice yields the same
state as applying it once (both on the map state and through the node's
`resetMapCallback`) — and after any `resetMap` call `getAllIndices` returns
the empty sequence. -/
theorem resetMap_idempotent_and_empties_indices :
    (∀ m : MapState, resetMap (resetMap m) = resetMap m) ∧
    (∀ m : MapState, getAllIndices (resetMap m) = []) ∧
    (∀ mo : Option MapState,
      resetMapCallback (resetMapCallback mo) = resetMapCallback mo) := by
  refine ⟨resetMap_idem, fun m => rfl, fun mo => ?_⟩
  cases mo with
  | none => rfl
  | some m => simp [resetMapCallback, resetMap_idem]

/-- Claim C7 counterexample: the parity filter `i % 2 == 0` is applied to the
raw candidate position, not to the position among finite candidates. With
candidates `[0,1,2,3]` where exactly the odd records are finite, the code
publishes no marker at all, while every-second-of-the-finite-candidates
(`[1,3]`) would publish one. -/
theorem sendMapMessage_not_every_second_finite :
    sendMapMessage cexCloud [0, 1, 2, 3] = [] ∧
    claimedMarkerSelection cexCloud [0, 1, 2, 3] = [1] := by
  constructor <;> decide

lemma sendMapMessage_filter_aux (cloudScene : Nat → SurfelPoint)
    (point_indices : List Nat) (l : List Nat) :
    ((l.filterMap fun i =>
        let point := cloudScene (point_indices.getD i 0)
        if point.finite && i % 2 == 0 then
          some (Marker.mk i point.x point.y point.z (point.radius * 2))
        else
          none).map Marker.id) =
      l.filter fun i =>
        (cloudScene (point_indices.getD i 0)).finite && i % 2 == 0 := by
  induction l with
  | nil => rfl
  | cons a rest ih =>
    cases hc : (cloudScene (point_indices.getD a 0)).finite && a % 2 == 0 <;>
      simp_all [List.filterMap_cons, List.filter_cons]

/-- Claim C7 (amended): a marker is emitted exactly for the candidates at
even positions of the truncated (first `min(|result|, 100000)`) candidate
list whose stored record is finite — the parity is that of the raw candidate
position, so non-finite records are never published, every emitted marker
comes from an even position with a finite record, and at most 100000
candidates are considered per call. -/
theorem sendMapMessage_even_finite_markers (cloudScene : Nat → SurfelPoint)
    (point_indices : List Nat) :
    (sendMapMessage cloudScene point_indices).map Marker.id =
      ((List.range (min point_indices.length MAX_MARKERS)).filter fun i =>
        (cloudScene (point_indices.getD i 0)).finite && i % 2 == 0) ∧
    (sendMapMessage cloudScene point_indices).length ≤ MAX_MARKERS := by
  constructor
  · exact sendMapMessage_filter_aux cloudScene point_indices _
  · calc (sendMapMessage cloudScene point_indices).length
        ≤ (List.range (min point_indices.length MAX_MARKERS)).length :=
          List.length_filterMap_le _ _
      _ ≤ MAX_MARKERS := by simp

lemma processQueueAux_eq (path : Option (List PoseStamped)) (mp : Mapper)
    (q : List CloudMsg) :
    processQueueAux path mp q =
      ({ mp with ingested := mp.ingested ++ q.takeWhile (okMsg path) },
        q.dropWhile (okMsg path)) := by
  induction q generalizing mp with
  | nil => simp [processQueueAux]
  | cons msg rest ih =>
    cases hg : getSensorPosition path msg.stamp with
    | none =>
      simp [processQueueAux, hg, okMsg, List.takeWhile_cons, List.dropWhile_cons]
    | some sp =>
      simp [processQueueAux, hg, okMsg, List.takeWhile_cons, List.dropWhile_cons,
        ih, addPointCloudToScene]

/-- Claim C4: keyframes are consumed strictly in FIFO order:
`processCloudMsgQueue` hands the longest prefix of the queue whose pose
lookup succeeds to the mapper, in queue order, appending them to the
already-ingested sequence; the remaining queue is exactly the corresponding
suffix, beginning at the first keyframe whose lookup fails (so a keyframe is
removed only once ingested and no later keyframe ever overtakes an earlier
one); `keyframeCallback` enqueues the arriving keyframe at the back before
processing. -/
theorem processCloudMsgQueue_fifo (st : NodeState) (mp : Mapper)
    (h : st.mapper = some mp) :
    processCloudMsgQueue st =
      { st with
          mapper := some { mp with
            ingested :=
              mp.ingested ++ st.cloudMsgQueue.takeWhile (okMsg st.current_path) },
          cloudMsgQueue := st.cloudMsgQueue.dropWhile (okMsg st.current_path) } ∧
    st.cloudMsgQueue.takeWhile (okMsg st.current_path) ++
        st.cloudMsgQueue.dropWhile (okMsg st.current_path) = st.cloudMsgQueue ∧
    (∀ msg : CloudMsg,
      keyframeCallback st msg =
        processCloudMsgQueue { st with cloudMsgQueue := st.cloudMsgQueue ++ [msg] }) := by
  obtain ⟨cp, q, mo⟩ := st
  cases mo with
  | none => simp at h
  | some mp0 =>
    obtain rfl : mp0 = mp := by simpa using h
    refine ⟨?_, List.takeWhile_append_dropWhile _ _, fun msg => rfl⟩
    simp [processCloudMsgQueue, processQueueAux_eq]

theorem processCloudMsgQueue_fifo_witness :
    processCloudMsgQueue wState =
      { wState with
          mapper := some { wMapper with
            ingested := wMapper.ingested ++
              wState.cloudMsgQueue.takeWhile (okMsg wState.current_path) },
          cloudMsgQueue :=
            wState.cloudMsgQueue.dropWhile (okMsg wState.current_path) } ∧
    wState.cloudMsgQueue.takeWhile (okMsg wState.current_path) ++
        wState.cloudMsgQueue.dropWhile (okMsg wState.current_path) =
      wState.cloudMsgQueue ∧
    (∀ msg : CloudMsg,
      keyframeCallback wState msg =
        processCloudMsgQueue
          { wState with cloudMsgQueue := wState.cloudMsgQueue ++ [msg] }) :=
  processCloudMsgQueue_fifo wState wMapper rfl

lemma getSensorPosition_none_iff (poses : List PoseStamped) (t : RosTime) :
    getSensorPosition (some poses) t = none ↔
      poses = [] ∨ timeLt (roundTimeStamp t) (stampRAt poses 0) ∨
        timeLt (stampRAt poses (poses.length - 1)) (roundTimeStamp t) := by
  cases poses with
  | nil => simp [getSensorPosition]
  | cons p ps =>
    by_cases hc : timeLt (roundTimeStamp t) (stampRAt (p :: ps) 0) ∨
        timeLt (stampRAt (p :: ps) ((p :: ps).length - 1)) (roundTimeStamp t) <;>
      simp [getSensorPosition, hc] <;> tauto

/-- Claim C3: `getSensorPosition` fails (returns no pose) exactly when there
is no path message, or the path's pose list is empty, or the rounded
keyframe stamp lies strictly outside the rounded `[front, back]` stamp
range; and when the pose lookup fails for the keyframe at the front of the
queue, `processCloudMsgQueue` pops nothing and leaves the node state — in
particular the failing keyframe at the front of the queue — unchanged. -/
theorem getSensorPosition_failure_conditions :
    (∀ t : RosTime, getSensorPosition none t = none) ∧
    (∀ (poses : List PoseStamped) (t : RosTime),
      getSensorPosition (some poses) t = none ↔
        poses = [] ∨ timeLt (roundTimeStamp t) (stampRAt poses 0) ∨
          timeLt (stampRAt poses (poses.length - 1)) (roundTimeStamp t)) ∧
    (∀ (st : NodeState) (mp : Mapper), st.mapper = some mp →
      ∀ (msg : CloudMsg) (rest : List CloudMsg),
        st.cloudMsgQueue = msg :: rest →
        getSensorPosition st.current_path msg.stamp = none →
        processCloudMsgQueue st = st) := by
  refine ⟨fun t => rfl, getSensorPosition_none_iff, ?_⟩
  · intro st mp h1 msg rest h2 h3
    obtain ⟨cp, q, mo⟩ := st
    cases mo with
    | none => simp at h1
    | some mp0 =>
      obtain rfl : mp0 = mp := by simpa using h1
      simp only at h2 h3
      subst h2
      simp [processCloudMsgQueue, processQueueAux, h3]

theorem getSensorPosition_failure_conditions_witness :
    processCloudMsgQueue wState = wState :=
  getSensorPosition_failure_conditions.2.2 wState wMapper rfl wCloud [] rfl rfl

/-- Claim C5: the first camera-info message creates the mapper with the
received intrinsics `(K[0], K[4], K[2], K[5]) = (alpha, beta, cx, cy)` and
immediately runs the buffered queue through `processCloudMsgQueue` (so the
pose-alignable prefix is ingested at once and the rest stays buffered);
every camera-info message received while a mapper exists leaves the state
untouched; and a keyframe arriving before any camera-info message is never
ingested — it is only appended to the back of the buffer. -/
theorem cameraInfoCallback_first_only (st : NodeState) (msg : CameraInfoMsg) :
    (st.mapper = none →
      (cameraInfoCallback st msg).mapper =
        some ⟨⟨msg.K 0, msg.K 4, msg.K 2, msg.K 5⟩,
              st.cloudMsgQueue.takeWhile (okMsg st.current_path)⟩ ∧
      (cameraInfoCallback st msg).cloudMsgQueue =
        st.cloudMsgQueue.dropWhile (okMsg st.current_path) ∧
      (cameraInfoCallback st msg).current_path = st.current_path) ∧
    (∀ mp : Mapper, st.mapper = some mp → cameraInfoCallback st msg = st) ∧
    (st.mapper = none → ∀ kf : CloudMsg,
      (keyframeCallback st kf).cloudMsgQueue = st.cloudMsgQueue ++ [kf] ∧
      (keyframeCallback st kf).mapper = none) := by
  obtain ⟨cp, q, mo⟩ := st
  refine ⟨fun h => ?_, fun mp h => ?_, fun h kf => ?_⟩
  · simp only at h
    subst h
    simp [cameraInfoCallback, processCloudMsgQueue, processQueueAux_eq]
  · simp only at h
    subst h
    rfl
  · simp only at h
    subst h
    simp [keyframeCallback, processCloudMsgQueue]

theorem cameraInfoCallback_first_only_witness :
    ((cameraInfoCallback ⟨none, [wCloud], none⟩ wCameraInfo).mapper =
        some ⟨⟨wCameraInfo.K 0, wCameraInfo.K 4, wCameraInfo.K 2, wCameraInfo.K 5⟩,
              (NodeState.mk none [wCloud] none).cloudMsgQueue.takeWhile
                (okMsg (NodeState.mk none [wCloud] none).current_path)⟩ ∧
      (cameraInfoCallback ⟨none, [wCloud], none⟩ wCameraInfo).cloudMsgQueue =
        (NodeState.mk none [wCloud] none).cloudMsgQueue.dropWhile
          (okMsg (NodeState.mk none [wCloud] none).current_path) ∧
      (cameraInfoCallback ⟨none, [wCloud], none⟩ wCameraInfo).current_path =
        (NodeState.mk none [wCloud] none).current_path) ∧
    ((keyframeCallback ⟨none, [wCloud], none⟩ wCloud).cloudMsgQueue =
        [wCloud] ++ [wCloud] ∧
      (keyframeCallback ⟨none, [wCloud], none⟩ wCloud).mapper = none) :=
  ⟨(cameraInfoCallback_first_only ⟨none, [wCloud], none⟩ wCameraInfo).1 rfl,
   (cameraInfoCallback_first_only ⟨none, [wCloud], none⟩ wCameraInfo).2.2 rfl wCloud⟩

lemma bisect_eq (poses : List PoseStamped) (tr : RosTime) (i j : Nat) :
    bisect poses tr i j =
      if i + 1 < j then
        if timeLe (stampRAt poses ((i + j) / 2)) tr then
          bisect poses tr ((i + j) / 2) j
        else
          bisect poses tr i ((i + j) / 2)
      else
        (i, j) := by
  rw [bisect]

/-- The bisection starting interval only shrinks: the resulting pair stays
within `[i, j]`, is ordered, and ends at most one step wide. -/
lemma bisect_bounds (poses : List PoseStamped) (tr : RosTime) :
    ∀ (d i j : Nat), j - i ≤ d → i ≤ j →
      i ≤ (bisect poses tr i j).1 ∧
      (bisect poses tr i j).1 ≤ (bisect poses tr i j).2 ∧
      (bisect poses tr i j).2 ≤ j ∧
      (bisect poses tr i j).2 ≤ (bisect poses tr i j).1 + 1 := by
  intro d
  induction d with
  | zero =>
    intro i j hd hij
    have hnl : ¬ (i + 1 < j) := by omega
    rw [bisect_eq, if_neg hnl]
    simp
    omega
  | succ d ih =>
    intro i j hd hij
    rw [bisect_eq]
    by_cases h1 : i + 1 < j
    · rw [if_pos h1]
      by_cases h2 : timeLe (stampRAt poses ((i + j) / 2)) tr
      · rw [if_pos h2]
        have hrec := ih ((i + j) / 2) j (by omega) (by omega)
        omega
      · rw [if_neg h2]
        have hrec := ih i ((i + j) / 2) (by omega) (by omega)
        omega
    · rw [if_neg h1]
      simp
      omega

/-- The bisection preserves the bracketing invariant: the rounded stamp at
the left index stays at most the search stamp, and the search stamp stays at
most the rounded stamp at the right index. -/
lemma bisect_bracket (poses : List PoseStamped) (tr : RosTime) :
    ∀ (d i j : Nat), j - i ≤ d →
      timeLe (stampRAt poses i) tr → timeLe tr (stampRAt poses j) →
      timeLe (stampRAt poses (bisect poses tr i j).1) tr ∧
      timeLe tr (stampRAt poses (bisect poses tr i j).2) := by
  intro d
  induction d with
  | zero =>
    intro i j hd hi hj
    have hnl : ¬ (i + 1 < j) := by omega
    rw [bisect_eq, if_neg hnl]
    exact ⟨hi, hj⟩
  | succ d ih =>
    intro i j hd hi hj
    rw [bisect_eq]
    by_cases h1 : i + 1 < j
    · rw [if_pos h1]
      by_cases h2 : timeLe (stampRAt poses ((i + j) / 2)) tr
      · rw [if_pos h2]
        exact ih ((i + j) / 2) j (by omega) h2 hj
      · rw [if_neg h2]
        exact ih i ((i + j) / 2) (by omega) hi (timeLe_of_not_timeLe _ _ h2)
    · rw [if_neg h1]
      exact ⟨hi, hj⟩

/-- Unfolding of the success branch of `getSensorPosition`. -/
lemma getSensorPosition_success (poses : List PoseStamped) (t : RosTime)
    (hne : poses ≠ [])
    (hno : ¬ (timeLt (roundTimeStamp t) (stampRAt poses 0) ∨
        timeLt (stampRAt poses (poses.length - 1)) (roundTimeStamp t))) :
    getSensorPosition (some poses) t =
      some (sensorPoseOf
        (poses.getD
          (if toNanos (roundTimeStamp t) -
                toNanos (stampRAt poses
                  (bisect poses (roundTimeStamp t) 0 (poses.length - 1)).1) <
              toNanos (stampRAt poses
                  (bisect poses (roundTimeStamp t) 0 (poses.length - 1)).2) -
                toNanos (roundTimeStamp t) then
            (bisect poses (roundTimeStamp t) 0 (poses.length - 1)).1
          else
            (bisect poses (roundTimeStamp t) 0 (poses.length - 1)).2)
          default).pose) := by
  have he : poses.isEmpty = false := by
    cases poses with
    | nil => exact absurd rfl hne
    | cons p ps => rfl
  simp [getSensorPosition, he, hno]

/-- Claim C9: for a nonempty path, the bisection of `getSensorPosition` stays
in bounds and terminates: the final indices satisfy `i ≤ j < |poses|` with
`j ≤ i + 1`; each iteration from a state `i + 1 < j` moves to a strictly
smaller interval whose midpoint lies strictly between `i` and `j` (so all
accesses are in `[0, |poses|)` and `j - i` strictly decreases — the recursion
is total by this measure); and the answer, when produced, indexes only the
final `i` or `j`. -/
theorem bisect_inbounds_terminates (poses : List PoseStamped) (t : RosTime)
    (hne : poses ≠ []) :
    (bisect poses (roundTimeStamp t) 0 (poses.length - 1)).1 ≤
      (bisect poses (roundTimeStamp t) 0 (poses.length - 1)).2 ∧
    (bisect poses (roundTimeStamp t) 0 (poses.length - 1)).2 < poses.length ∧
    (bisect poses (roundTimeStamp t) 0 (poses.length - 1)).2 ≤
      (bisect poses (roundTimeStamp t) 0 (poses.length - 1)).1 + 1 ∧
    (∀ i j : Nat, i + 1 < j →
      i < (i + j) / 2 ∧ (i + j) / 2 < j ∧
      j - (i + j) / 2 < j - i ∧ (i + j) / 2 - i < j - i) ∧
    (getSensorPosition (some poses) t = none ∨
      getSensorPosition (some poses) t =
        some (sensorPoseOf
          (poses.getD
            (bisect poses (roundTimeStamp t) 0 (poses.length - 1)).1 default).pose) ∨
      getSensorPosition (some poses) t =
        some (sensorPoseOf
          (poses.getD
            (bisect poses (roundTimeStamp t) 0 (poses.length - 1)).2 default).pose)) := by
  have hn : 0 < poses.length := List.length_pos.mpr hne
  obtain ⟨hb1, hb2, hb3, hb4⟩ := bisect_bounds poses (roundTimeStamp t)
    (poses.length - 1) 0 (poses.length - 1) (by omega) (by omega)
  refine ⟨hb2, by omega, hb4, fun i j h => by omega, ?_⟩
  by_cases hno : timeLt (roundTimeStamp t) (stampRAt poses 0) ∨
      timeLt (stampRAt poses (poses.length - 1)) (roundTimeStamp t)
  · left
    rw [getSensorPosition_none_iff poses t]
    tauto
  · rw [getSensorPosition_success poses t hne hno]
    by_cases hd : toNanos (roundTimeStamp t) -
        toNanos (stampRAt poses
          (bisect poses (roundTimeStamp t) 0 (poses.length - 1)).1) <
        toNanos (stampRAt poses
          (bisect poses (roundTimeStamp t) 0 (poses.length - 1)).2) -
        toNanos (roundTimeStamp t)
    · right; left; rw [if_pos hd]
    · right; right; rw [if_neg hd]

theorem bisect_inbounds_terminates_witness :
    (bisect wNearPoses (roundTimeStamp wNearStamp) 0 (wNearPoses.length - 1)).1 ≤
      (bisect wNearPoses (roundTimeStamp wNearStamp) 0 (wNearPoses.length - 1)).2 ∧
    (bisect wNearPoses (roundTimeStamp wNearStamp) 0 (wNearPoses.length - 1)).2 <
      wNearPoses.length ∧
    (bisect wNearPoses (roundTimeStamp wNearStamp) 0 (wNearPoses.length - 1)).2 ≤
      (bisect wNearPoses (roundTimeStamp wNearStamp) 0 (wNearPoses.length - 1)).1 + 1 ∧
    (∀ i j : Nat, i + 1 < j →
      i < (i + j) / 2 ∧ (i + j) / 2 < j ∧
      j - (i + j) / 2 < j - i ∧ (i + j) / 2 - i < j - i) ∧
    (getSensorPosition (some wNearPoses) wNearStamp = none ∨
      getSensorPosition (some wNearPoses) wNearStamp =
        some (sensorPoseOf
          (wNearPoses.getD
            (bisect wNearPoses (roundTimeStamp wNearStamp) 0
              (wNearPoses.length - 1)).1 default).pose) ∨
      getSensorPosition (some wNearPoses) wNearStamp =
        some (sensorPoseOf
          (wNearPoses.getD
            (bisect wNearPoses (roundTimeStamp wNearStamp) 0
              (wNearPoses.length - 1)).2 default).pose)) :=
  bisect_inbounds_terminates wNearPoses wNearStamp (by decide)

/-- Claim C1: for a path whose poses are sorted by nondecreasing rounded
timestamp and a keyframe stamp whose rounded value lies in the rounded
`[front, back]` range, `getSensorPosition` succeeds and returns the pose of
a path entry whose rounded timestamp is nearest to the rounded keyframe
timestamp: no entry of the path has a strictly smaller absolute rounded-
timestamp difference. -/
theorem getSensorPosition_nearest (poses : List PoseStamped) (t : RosTime)
    (hne : poses ≠ [])
    (hvt : t.nsec < 1000000000)
    (hv : ∀ m, m < poses.length → (poses.getD m default).stamp.nsec < 1000000000)
    (hsorted : ∀ a, a < poses.length → ∀ b, b < poses.length → a ≤ b →
      toNanos (stampRAt poses a) ≤ toNanos (stampRAt poses b))
    (hlo : toNanos (stampRAt poses 0) ≤ toNanos (roundTimeStamp t))
    (hhi : toNanos (roundTimeStamp t) ≤
      toNanos (stampRAt poses (poses.length - 1))) :
    ∃ k, k < poses.length ∧
      getSensorPosition (some poses) t =
        some (sensorPoseOf (poses.getD k default).pose) ∧
      ∀ m, m < poses.length →
        (toNanos (roundTimeStamp t) - toNanos (stampRAt poses k)).natAbs ≤
          (toNanos (roundTimeStamp t) - toNanos (stampRAt poses m)).natAbs := by
  have hn : 0 < poses.length := List.length_pos.mpr hne
  have hvR : ∀ m, m < poses.length → (stampRAt poses m).nsec < 1000000000 :=
    fun m hm => (roundTimeStamp_normalized _ (hv m hm)).2
  have hvT : (roundTimeStamp t).nsec < 1000000000 :=
    (roundTimeStamp_normalized t hvt).2
  have hno : ¬ (timeLt (roundTimeStamp t) (stampRAt poses 0) ∨
      timeLt (stampRAt poses (poses.length - 1)) (roundTimeStamp t)) := by
    rw [timeLt_iff_toNanos _ _ hvT (hvR 0 hn),
      timeLt_iff_toNanos _ _ (hvR _ (by omega)) hvT]
    omega
  obtain ⟨hb1, hb2, hb3, hb4⟩ := bisect_bounds poses (roundTimeStamp t)
    (poses.length - 1) 0 (poses.length - 1) (by omega) (by omega)
  have hIi : timeLe (stampRAt poses 0) (roundTimeStamp t) := by
    rw [timeLe_iff_toNanos _ _ (hvR 0 hn) hvT]
    exact hlo
  have hIj : timeLe (roundTimeStamp t) (stampRAt poses (poses.length - 1)) := by
    rw [timeLe_iff_toNanos _ _ hvT (hvR _ (by omega))]
    exact hhi
  obtain ⟨hbr1, hbr2⟩ := bisect_bracket poses (roundTimeStamp t)
    (poses.length - 1) 0 (poses.length - 1) (by omega) hIi hIj
  rw [getSensorPosition_success poses t hne hno]
  set p := bisect poses (roundTimeStamp t) 0 (poses.length - 1) with hp
  have hp2n : p.2 < poses.length := by omega
  have hp1n : p.1 < poses.length := by omega
  have hRi : toNanos (stampRAt poses p.1) ≤ toNanos (roundTimeStamp t) := by
    rw [← timeLe_iff_toNanos _ _ (hvR _ hp1n) hvT]
    exact hbr1
  have hRj : toNanos (roundTimeStamp t) ≤ toNanos (stampRAt poses p.2) := by
    rw [← timeLe_iff_toNanos _ _ hvT (hvR _ hp2n)]
    exact hbr2
  by_cases hd : toNanos (roundTimeStamp t) - toNanos (stampRAt poses p.1) <
      toNanos (stampRAt poses p.2) - toNanos (roundTimeStamp t)
  · refine ⟨p.1, hp1n, by rw [if_pos hd], ?_⟩
    intro m hm
    rcases le_or_lt m p.1 with hle | hgt
    · have hs := hsorted m hm p.1 hp1n hle
      omega
    · have hge : p.2 ≤ m := by omega
      have hs := hsorted p.2 hp2n m hm hge
      omega
  · refine ⟨p.2, hp2n, by rw [if_neg hd], ?_⟩
    intro m hm
    rcases le_or_lt m p.1 with hle | hgt
    · have hs := hsorted m hm p.1 hp1n hle
      omega
    · have hge : p.2 ≤ m := by omega
      have hs := hsorted p.2 hp2n m hm hge
      omega

theorem getSensorPosition_nearest_witness :
    ∃ k, k < wNearPoses.length ∧
      getSensorPosition (some wNearPoses) wNearStamp =
        some (sensorPoseOf (wNearPoses.getD k default).pose) ∧
      ∀ m, m < wNearPoses.length →
        (toNanos (roundTimeStamp wNearStamp) -
            toNanos (stampRAt wNearPoses k)).natAbs ≤
          (toNanos (roundTimeStamp wNearStamp) -
            toNanos (stampRAt wNearPoses m)).natAbs :=
  getSensorPosition_nearest wNearPoses wNearStamp (by decide) (by decide)
    (by decide) (by decide) (by decide) (by decide)

end SurfelMapperNode
